import Mathlib

/-!
# Verification of the Pokémon TCG valuator app (`src/app.py`)

Shallow embedding of the query-construction, field-extraction, not-found and
agent-error-handling logic of `app.py`, together with theorems settling the
specification claims about it.

Python strings are modelled as `List Char`; Python dictionaries with string
keys as ordered association lists (insertion order, unique keys); the nested
card record returned by the upstream SDK as a tree `PyVal` on which attribute
access is a partial lookup; fallible external calls (the upstream search, the
agent construction and the agent run) as explicit parameters with `Option` /
`Except` types.
-/

namespace PokemonTCG

/-- A Python string, modelled as its list of characters. -/
abbrev Str := List Char

/-- Python `s.lower()` (character-wise lowercasing). -/
def pylower (s : Str) : Str := s.map Char.toLower

/-- Python `s.replace("&", "")`: every ampersand character is removed. -/
def removeAmp (s : Str) : Str := s.filter (fun c => c ≠ '&')

/-- Python `s.split(" ")` followed by `list(filter(None, ...))`:
split on the space character (only U+0020, keeping empty chunks between
consecutive spaces), then drop the empty chunks. -/
def tokens (s : Str) : List Str := (s.splitOn ' ').filter (fun t => t ≠ [])

/-- One query term, Python `f" {field}:{tok} "` (note the surrounding spaces). -/
def term (field tok : Str) : Str := [' '] ++ field ++ [':'] ++ tok ++ [' ']

/-- A per-field clause, Python
`f"({'AND '.join([f' {field}:{t} ' for t in toks])})"`. -/
def clause (field : Str) (toks : List Str) : Str :=
  ['('] ++ List.intercalate ("AND ".toList) (toks.map (term field)) ++ [')']

/-- The query string built in `get_card_image` (`app.py` lines 50–63):
`f"{card_name_formated} {set_name_formated} {set_series_formated} (number:{number})"`
where the name field is lower-cased, split and filtered, and the two set-level
fields additionally have `&` removed before splitting. -/
def query_image (card_name set_name set_series number : Str) : Str :=
  clause ("name".toList) (tokens (pylower card_name)) ++ [' ']
    ++ clause ("set.name".toList) (tokens (removeAmp (pylower set_name))) ++ [' ']
    ++ clause ("set.series".toList) (tokens (removeAmp (pylower set_series))) ++ [' ']
    ++ ['('] ++ ("number:".toList) ++ number ++ [')']

/-- The query string built in `get_card_info` (`app.py` lines 92–104); the
source duplicates the construction of lines 50–63 verbatim. -/
def query_info (card_name set_name set_series number : Str) : Str :=
  clause ("name".toList) (tokens (pylower card_name)) ++ [' ']
    ++ clause ("set.name".toList) (tokens (removeAmp (pylower set_name))) ++ [' ']
    ++ clause ("set.series".toList) (tokens (removeAmp (pylower set_series))) ++ [' ']
    ++ ['('] ++ ("number:".toList) ++ number ++ [')']

example : query_image ("Eevee EX".toList) [] [] ("167".toList)
    = "( name:eevee AND  name:ex ) () () (number:167)".toList := by decide

/-- A Python value as seen by the field extractor: an object with named
attributes, a string, a number, or `None`.  Attribute access succeeds only on
an object that carries the attribute; on any other value it raises
(`AttributeError` / `TypeError`), which the model renders as `Option.none`. -/
inductive PyVal where
  | obj : List (String × PyVal) → PyVal
  | vstr : Str → PyVal
  | vnum : Int → PyVal
  | vnone : PyVal

/-- Python `getattr(value, attr)`, as a partial operation: the lookup succeeds
only when `value` is an object exposing `attr`. -/
def getattrOpt : PyVal → String → Option PyVal
  | .obj fields, a => fields.lookup a
  | _, _ => Option.none

/-- The inner loop of `get_card_info` (`app.py` lines 142–144): walk an
attribute path starting from the record; any failing step aborts the walk. -/
def walk : PyVal → List String → Option PyVal
  | v, [] => some v
  | v, a :: rest =>
    match getattrOpt v a with
    | some v2 => walk v2 rest
    | Option.none => Option.none

/-- The fixed extraction table of `get_card_info` (`app.py` lines 117–136),
in source order. -/
def field_map : List (String × List String) :=
  [("url", ["cardmarket", "url"]),
   ("name", ["name"]),
   ("set_name", ["set", "series"]),
   ("rarity", ["rarity"]),
   ("release_date", ["set", "releaseDate"]),
   ("printed_total", ["set", "printedTotal"]),
   ("updated_at", ["cardmarket", "updatedAt"]),
   ("average_sell_price", ["cardmarket", "prices", "averageSellPrice"]),
   ("low_price", ["cardmarket", "prices", "lowPrice"]),
   ("trend_price", ["cardmarket", "prices", "trendPrice"]),
   ("suggested_price", ["cardmarket", "prices", "suggestedPrice"]),
   ("reverse_holo_sell", ["cardmarket", "prices", "reverseHoloSell"]),
   ("cardmarket_prices_reverse_holo_trend", ["cardmarket", "prices", "reverseHoloTrend"]),
   ("cardmarket_prices_reverse_holo_low", ["cardmarket", "prices", "reverseHoloLow"]),
   ("tcgprices_prices_holofoil_low", ["tcgplayer", "prices", "holofoil", "low"]),
   ("tcgprices_prices_holofoil_mid", ["tcgplayer", "prices", "holofoil", "mid"]),
   ("tcgprices_prices_holofoil_high", ["tcgplayer", "prices", "holofoil", "high"]),
   ("tcgprices_prices_holofoil_market", ["tcgplayer", "prices", "holofoil", "market"])]

/-- Extraction loop over an arbitrary table (`app.py` lines 138–147): for each
`(key, path)` pair in order, if the walk resolves, append `key ↦ value` to the
result; on `AttributeError` / `TypeError` skip the key entirely.  The Python
dict `result` with distinct keys assigned in iteration order is modelled as an
ordered association list. -/
def extract_over (l : List (String × List String)) (card : PyVal) :
    List (String × PyVal) :=
  l.filterMap (fun kp => (walk card kp.2).map (fun v => (kp.1, v)))

/-- The field extraction performed by `get_card_info` on the matched record. -/
def extract_fields (card : PyVal) : List (String × PyVal) :=
  extract_over field_map card

/-- The not-found payload returned by both operations
(`app.py` lines 66–72 and 107–113). -/
def notFoundPayload (card_name set_name set_series number : Str) :
    List (String × PyVal) :=
  [("error", PyVal.vstr ("Card not found".toList)),
   ("card_name", PyVal.vstr card_name),
   ("set_name", PyVal.vstr set_name),
   ("set_series", PyVal.vstr set_series),
   ("number", PyVal.vstr number)]

/-- Result of `get_card_image`: an image URL (`card_data.images.small`), the
structured not-found dictionary, or an uncaught `AttributeError` when the
matched record lacks `images.small` (nothing in the source catches it there). -/
inductive ImageOut where
  | image : PyVal → ImageOut
  | err : List (String × PyVal) → ImageOut
  | attrError : ImageOut

/-- `get_card_image` (`app.py` lines 39–76).  The external `Card.where` call is
an explicit parameter `search` from the query string to the list of matching
records.  `if len(card_data) == 0: return {...}` then `card_data = card_data[0]`
is the match on the result list. -/
def get_card_image (search : Str → List PyVal)
    (card_name set_name set_series number : Str) : ImageOut :=
  match search (query_image card_name set_name set_series number) with
  | [] => ImageOut.err (notFoundPayload card_name set_name set_series number)
  | c :: _ =>
    match walk c ["images", "small"] with
    | some u => ImageOut.image u
    | Option.none => ImageOut.attrError

/-- `get_card_info` (`app.py` lines 81–149): search with the duplicated query,
return the not-found payload on zero matches, otherwise extract the fixed
fields from the first match. -/
def get_card_info (search : Str → List PyVal)
    (card_name set_name set_series number : Str) : List (String × PyVal) :=
  match search (query_info card_name set_name set_series number) with
  | [] => notFoundPayload card_name set_name set_series number
  | c :: _ => extract_fields c

/-- Result of `run_agent`: either the agent's answer string, or the pair
`(formatted error string, None)` returned from the two `except` blocks. -/
inductive RunAgentResult where
  | answer : Str → RunAgentResult
  | errorPair : Str → Option Str → RunAgentResult

/-- `run_agent` (`app.py` lines 176–201).  The two external fallible steps are
parameters: `instantiate` models `PokemonTCGAgent()` (the `ToolCallingAgent`
construction, which may raise) and `runA` models
`agent(card_name=..., set_name=..., set_series=..., number=...)` (the agent
run, which may raise); a raised exception `e` is the `Except.error` case
carrying `str(e)`.  Each `except` branch returns the f-string paired with
`None`. -/
def run_agent (instantiate : Except Str Unit)
    (runA : Str → Str → Str → Str → Except Str Str)
    (card_name set_name set_series number : Str) : RunAgentResult :=
  match instantiate with
  | .error e =>
    RunAgentResult.errorPair ("Error initializing agent: ".toList ++ e) Option.none
  | .ok _ =>
    match runA card_name set_name set_series number with
    | .error e =>
      RunAgentResult.errorPair ("Error running agent: ".toList ++ e) Option.none
    | .ok answer => RunAgentResult.answer answer

/-- Python whitespace characters (the separators of `str.split()` with no
argument). -/
def isPyWhitespace (c : Char) : Bool :=
  c == ' ' || c == '\t' || c == '\n' || c == '\r' || c == '\x0b' || c == '\x0c'

/-- Modelled from the spec's words for comparison with the source behaviour:
tokenization by splitting on WHITESPACE (not only the space character),
dropping empty tokens. -/
def tokensWS (s : Str) : List Str :=
  (List.splitOnP isPyWhitespace s).filter (fun t => t ≠ [])

/-- Modelled from the spec's words for comparison with the source behaviour:
the query as the claim describes it, with one term per whitespace-separated
token of each lower-cased field. -/
def query_claimWS (card_name set_name set_series number : Str) : Str :=
  clause ("name".toList) (tokensWS (pylower card_name)) ++ [' ']
    ++ clause ("set.name".toList) (tokensWS (removeAmp (pylower set_name))) ++ [' ']
    ++ clause ("set.series".toList) (tokensWS (removeAmp (pylower set_series))) ++ [' ']
    ++ ['('] ++ ("number:".toList) ++ number ++ [')']

/-- A concrete card record on which every path of `field_map` (and the image
path) resolves; used to instantiate the universally quantified theorems. -/
def sampleCard : PyVal :=
  PyVal.obj
    [("name", PyVal.vstr ("Eevee EX".toList)),
     ("rarity", PyVal.vstr ("Special Illustration Rare".toList)),
     ("set", PyVal.obj
       [("series", PyVal.vstr ("Scarlet & Violet".toList)),
        ("releaseDate", PyVal.vstr ("2025/01/17".toList)),
        ("printedTotal", PyVal.vnum 131)]),
     ("cardmarket", PyVal.obj
       [("url", PyVal.vstr ("https://cardmarket.example/eevee-ex".toList)),
        ("updatedAt", PyVal.vstr ("2025/10/01".toList)),
        ("prices", PyVal.obj
          [("averageSellPrice", PyVal.vnum 171),
           ("lowPrice", PyVal.vnum 154),
           ("trendPrice", PyVal.vnum 180),
           ("suggestedPrice", PyVal.vnum 175),
           ("reverseHoloSell", PyVal.vnum 10),
           ("reverseHoloTrend", PyVal.vnum 11),
           ("reverseHoloLow", PyVal.vnum 9)])]),
     ("tcgplayer", PyVal.obj
       [("prices", PyVal.obj
         [("holofoil", PyVal.obj
           [("low", PyVal.vnum 154),
            ("mid", PyVal.vnum 180),
            ("high", PyVal.vnum 360),
            ("market", PyVal.vnum 171)])])]),
     ("images", PyVal.obj
       [("small", PyVal.vstr ("https://images.example/sv8pt5/167.png".toList))])]

/-! ## Helper lemmas -/

/-- Every chunk produced by `splitOnP` is free of separator elements. -/
theorem splitOnP_chunk_false {α : Type} (p : α → Bool) (l : List α) :
    ∀ t ∈ List.splitOnP p l, ∀ c ∈ t, p c = false := by
  induction l with
  | nil =>
    intro t ht c hc
    rw [List.splitOnP_nil] at ht
    simp only [List.mem_singleton] at ht
    subst ht
    simp at hc
  | cons x xs ih =>
    intro t ht c hc
    rw [List.splitOnP_cons] at ht
    by_cases hx : p x
    · rw [if_pos hx] at ht
      rcases List.mem_cons.mp ht with h | h
      · subst h; simp at hc
      · exact ih t h c hc
    · rw [if_neg hx] at ht
      obtain ⟨hd, tl, heq⟩ : ∃ hd tl, List.splitOnP p xs = hd :: tl := by
        cases h : List.splitOnP p xs with
        | nil => exact absurd h (List.splitOnP_ne_nil p xs)
        | cons a b => exact ⟨a, b, rfl⟩
      rw [heq, List.modifyHead_cons] at ht
      rcases List.mem_cons.mp ht with h | h
      · subst h
        rcases List.mem_cons.mp hc with h | h
        · subst h; exact Bool.not_eq_true _ ▸ (by simpa using hx)
        · exact ih hd (heq ▸ List.mem_cons_self _ _) c h
      · exact ih t (heq ▸ List.mem_cons_of_mem _ h) c hc

/-- Every element of a `splitOnP` chunk comes from the original list. -/
theorem splitOnP_chunk_subset {α : Type} (p : α → Bool) (l : List α) :
    ∀ t ∈ List.splitOnP p l, ∀ c ∈ t, c ∈ l := by
  induction l with
  | nil =>
    intro t ht c hc
    rw [List.splitOnP_nil] at ht
    simp only [List.mem_singleton] at ht
    subst ht
    simp at hc
  | cons x xs ih =>
    intro t ht c hc
    rw [List.splitOnP_cons] at ht
    by_cases hx : p x
    · rw [if_pos hx] at ht
      rcases List.mem_cons.mp ht with h | h
      · subst h; simp at hc
      · exact List.mem_cons_of_mem _ (ih t h c hc)
    · rw [if_neg hx] at ht
      obtain ⟨hd, tl, heq⟩ : ∃ hd tl, List.splitOnP p xs = hd :: tl := by
        cases h : List.splitOnP p xs with
        | nil => exact absurd h (List.splitOnP_ne_nil p xs)
        | cons a b => exact ⟨a, b, rfl⟩
      rw [heq, List.modifyHead_cons] at ht
      rcases List.mem_cons.mp ht with h | h
      · subst h
        rcases List.mem_cons.mp hc with h | h
        · subst h; exact List.mem_cons_self _ _
        · exact List.mem_cons_of_mem _ (ih hd (heq ▸ List.mem_cons_self _ _) c h)
      · exact List.mem_cons_of_mem _ (ih t (heq ▸ List.mem_cons_of_mem _ h) c hc)

/-- A token produced by `tokens` is non-empty, space-free, and drawn from the
characters of the input. -/
theorem tokens_spec (s : Str) :
    ∀ t ∈ tokens s, t ≠ [] ∧ ' ' ∉ t ∧ ∀ c ∈ t, c ∈ s := by
  intro t ht
  rw [tokens, List.mem_filter] at ht
  obtain ⟨hmem, hne⟩ := ht
  rw [List.splitOn] at hmem
  refine ⟨by simpa using hne, ?_, fun c hc => splitOnP_chunk_subset _ s t hmem c hc⟩
  intro hsp
  have := splitOnP_chunk_false (fun c => c == ' ') s t hmem ' ' hsp
  simp at this

/-- Splitting on spaces and rejoining with single spaces recovers the input:
`tokens` really is the space-splitting of the input with empties dropped. -/
theorem splitOn_space_intercalate (s : Str) :
    List.intercalate [' '] (s.splitOn ' ') = s :=
  List.intercalate_splitOn s ' '

theorem intercalate_cons_cons {α : Type} (sep t1 t2 : List α)
    (ts : List (List α)) :
    List.intercalate sep (t1 :: t2 :: ts)
      = t1 ++ sep ++ List.intercalate sep (t2 :: ts) := by
  simp [List.intercalate, List.intersperse_cons_cons, List.append_assoc]

/-- Any element of an intercalation is in the separator or in one of the
chunks. -/
theorem mem_intercalate_cases {α : Type} (sep : List α) :
    ∀ (xs : List (List α)) (c : α), c ∈ List.intercalate sep xs →
      c ∈ sep ∨ ∃ t ∈ xs, c ∈ t := by
  intro xs
  induction xs with
  | nil => intro c hc; simp [List.intercalate] at hc
  | cons t ts ih =>
    intro c hc
    cases ts with
    | nil =>
      right
      exact ⟨t, List.mem_cons_self _ _, by simpa [List.intercalate] using hc⟩
    | cons t2 ts2 =>
      rw [intercalate_cons_cons] at hc
      rcases List.mem_append.mp hc with h | h
      · rcases List.mem_append.mp h with h2 | h2
        · exact Or.inr ⟨t, List.mem_cons_self _ _, h2⟩
        · exact Or.inl h2
      · rcases ih c h with h2 | ⟨u, hu, hcu⟩
        · exact Or.inl h2
        · exact Or.inr ⟨u, List.mem_cons_of_mem _ hu, hcu⟩

/-- Any character of a clause is a parenthesis, part of the separator `"AND "`,
part of a term, i.e. a space, a colon, a field character or a token
character. -/
theorem mem_clause_cases (field : Str) (toks : List Str) (c : Char)
    (hc : c ∈ clause field toks) :
    c = '(' ∨ c = ')' ∨ c = ' ' ∨ c = ':' ∨ c ∈ ("AND ".toList)
      ∨ c ∈ field ∨ ∃ t ∈ toks, c ∈ t := by
  rw [clause] at hc
  rcases List.mem_append.mp hc with h | h
  · rcases List.mem_append.mp h with h1 | h1
    · simp only [List.mem_singleton] at h1; exact Or.inl h1
    · rcases mem_intercalate_cases _ _ _ h1 with h2 | ⟨u, hu, hcu⟩
      · exact Or.inr (Or.inr (Or.inr (Or.inr (Or.inl h2))))
      · obtain ⟨t, ht, rfl⟩ := List.mem_map.mp hu
        rw [term] at hcu
        rcases List.mem_append.mp hcu with h3 | h3
        · rcases List.mem_append.mp h3 with h4 | h4
          · rcases List.mem_append.mp h4 with h5 | h5
            · rcases List.mem_append.mp h5 with h6 | h6
              · simp only [List.mem_singleton] at h6
                exact Or.inr (Or.inr (Or.inl h6))
              · exact Or.inr (Or.inr (Or.inr (Or.inr (Or.inr (Or.inl h6)))))
            · simp only [List.mem_singleton] at h5
              exact Or.inr (Or.inr (Or.inr (Or.inl h5)))
          · exact Or.inr (Or.inr (Or.inr (Or.inr (Or.inr (Or.inr ⟨t, ht, h4⟩)))))
        · simp only [List.mem_singleton] at h3
          exact Or.inr (Or.inr (Or.inl h3))
  · simp only [List.mem_singleton] at h
    exact Or.inr (Or.inl h)

/-- The ampersand never survives `removeAmp`. -/
theorem amp_not_mem_removeAmp (s : Str) : '&' ∉ removeAmp s := by
  intro h
  rw [removeAmp, List.mem_filter] at h
  simp at h

/-- No ampersand occurs in a clause whose tokens come from an
ampersand-stripped input. -/
theorem amp_not_mem_clause (field : Str) (s : Str) (hf : '&' ∉ field) :
    '&' ∉ clause field (tokens (removeAmp s)) := by
  intro h
  rcases mem_clause_cases _ _ _ h with h1 | h1 | h1 | h1 | h1 | h1 | ⟨t, ht, hc⟩
  · exact absurd h1 (by decide)
  · exact absurd h1 (by decide)
  · exact absurd h1 (by decide)
  · exact absurd h1 (by decide)
  · exact absurd h1 (by decide)
  · exact hf h1
  · exact amp_not_mem_removeAmp s ((tokens_spec _ t ht).2.2 '&' hc)

/-- Looking up a key that is not among the keys of an association list yields
`none`. -/
theorem lookup_eq_none_of_not_mem_keys (l : List (String × PyVal)) (k : String)
    (h : k ∉ l.map Prod.fst) : l.lookup k = Option.none := by
  induction l with
  | nil => rfl
  | cons q rest ih =>
    simp only [List.map_cons, List.mem_cons, not_or] at h
    have hk : (k == q.1) = false := beq_eq_false_iff_ne.mpr h.1
    simpa [List.lookup, hk] using ih h.2

/-- The keys of the extraction result are exactly the keys of the table rows
whose path resolves, in table order. -/
theorem extract_over_keys (l : List (String × List String)) (card : PyVal) :
    (extract_over l card).map Prod.fst
      = (l.filter (fun kp => (walk card kp.2).isSome)).map Prod.fst := by
  induction l with
  | nil => rfl
  | cons kp rest ih =>
    cases h : walk card kp.2 with
    | none => simpa [extract_over, List.filterMap_cons, List.filter_cons, h] using ih
    | some v => simpa [extract_over, List.filterMap_cons, List.filter_cons, h] using ih

/-- When every path of the table resolves on the record, the extraction result
carries exactly the table's full key list. -/
theorem extract_over_full (l : List (String × List String)) (card : PyVal)
    (hall : ∀ kp ∈ l, (walk card kp.2).isSome) :
    (extract_over l card).map Prod.fst = l.map Prod.fst := by
  rw [extract_over_keys, List.filter_eq_self.mpr hall]

/-- With distinct table keys, looking up a table key in the extraction result
returns exactly the result of walking that key's path. -/
theorem lookup_extract_over (l : List (String × List String)) (card : PyVal)
    (hnd : (l.map Prod.fst).Nodup) :
    ∀ kp ∈ l, (extract_over l card).lookup kp.1 = walk card kp.2 := by
  induction l with
  | nil => simp
  | cons q rest ih =>
    intro kp hkp
    rw [List.map_cons, List.nodup_cons] at hnd
    rcases List.mem_cons.mp hkp with rfl | hmem
    · cases h : walk card kp.2 with
      | some v => simp [extract_over, List.filterMap_cons, h, List.lookup]
      | none =>
        have hkeys : kp.1 ∉ (extract_over rest card).map Prod.fst := by
          intro hk
          rw [extract_over_keys, List.mem_map] at hk
          obtain ⟨kp2, hkp2, hfst⟩ := hk
          exact hnd.1
            (hfst ▸ List.mem_map_of_mem Prod.fst (List.mem_of_mem_filter hkp2))
        simpa [extract_over, List.filterMap_cons, h] using
          lookup_eq_none_of_not_mem_keys _ _ hkeys
    · have hne : (kp.1 == q.1) = false := by
        refine beq_eq_false_iff_ne.mpr fun hkq => hnd.1 ?_
        exact hkq ▸ List.mem_map_of_mem Prod.fst hmem
      cases h : walk card q.2 with
      | some v =>
        simpa [extract_over, List.filterMap_cons, h, List.lookup, hne] using
          ih hnd.2 kp hmem
      | none =>
        simpa [extract_over, List.filterMap_cons, h] using ih hnd.2 kp hmem

/-- When exactly one table row fails to resolve, the extraction result carries
the table's key list with exactly that one key erased. -/
theorem extract_over_erase (l : List (String × List String)) (card : PyVal)
    (kp0 : String × List String) (hnd : (l.map Prod.fst).Nodup) (h0 : kp0 ∈ l)
    (hfail : walk card kp0.2 = Option.none)
    (hrest : ∀ kp ∈ l, kp ≠ kp0 → (walk card kp.2).isSome) :
    (extract_over l card).map Prod.fst = (l.map Prod.fst).erase kp0.1 := by
  induction l with
  | nil => simp at h0
  | cons q rest ih =>
    rw [List.map_cons, List.nodup_cons] at hnd
    rcases List.mem_cons.mp h0 with rfl | hmem
    · have hall : ∀ kp ∈ rest, (walk card kp.2).isSome := by
        intro kp hkp
        refine hrest kp (List.mem_cons_of_mem _ hkp) fun hkq => hnd.1 ?_
        exact hkq ▸ List.mem_map_of_mem Prod.fst hkp
      rw [List.map_cons, List.erase_cons_head]
      simpa [extract_over, List.filterMap_cons, hfail] using
        extract_over_full rest card hall
    · have hqne : q ≠ kp0 := by
        intro hq
        exact hnd.1 (hq ▸ List.mem_map_of_mem Prod.fst hmem)
      have hkne : (kp0.1 == q.1) = false := by
        refine beq_eq_false_iff_ne.mpr fun hkq => hnd.1 ?_
        exact hkq ▸ List.mem_map_of_mem Prod.fst hmem
      obtain ⟨v, hv⟩ := Option.isSome_iff_exists.mp
        (hrest q (List.mem_cons_self _ _) hqne)
      have := ih hnd.2 hmem
        (fun kp hkp hne => hrest kp (List.mem_cons_of_mem _ hkp) hne)
      rw [List.map_cons,
        List.erase_cons_tail (by simpa using (beq_eq_false_iff_ne.mp hkne).symm)]
      simpa [extract_over, List.filterMap_cons, hv] using congrArg (q.1 :: ·) this

/-- The 18 output keys of the extraction table are pairwise distinct. -/
theorem field_map_keys_nodup : (field_map.map Prod.fst).Nodup := by decide

/-! ## Claim theorems -/

/-- Claim C1: for every card record and every `(key, path)` pair of the fixed
extraction table, the mapping returned by `get_card_info` contains the key if
and only if every attribute step of the path resolves, in which case the
stored value is the resolved leaf value (lookup equals the path walk); the
result's keys are exactly the table keys whose path resolves, so a fully
resolvable record yields the full fixed key set, and a record on which exactly
one path fails yields all keys except that one. -/
theorem C1_field_extraction (card : PyVal) :
    (∀ kp ∈ field_map, (extract_fields card).lookup kp.1 = walk card kp.2) ∧
    ((extract_fields card).map Prod.fst
      = (field_map.filter (fun kp => (walk card kp.2).isSome)).map Prod.fst) ∧
    ((∀ kp ∈ field_map, (walk card kp.2).isSome) →
      (extract_fields card).map Prod.fst = field_map.map Prod.fst) ∧
    (∀ kp0 ∈ field_map, walk card kp0.2 = Option.none →
      (∀ kp ∈ field_map, kp ≠ kp0 → (walk card kp.2).isSome) →
      (extract_fields card).map Prod.fst = (field_map.map Prod.fst).erase kp0.1) :=
  ⟨lookup_extract_over field_map card field_map_keys_nodup,
   extract_over_keys field_map card,
   extract_over_full field_map card,
   fun kp0 h0 hfail hrest =>
     extract_over_erase field_map card kp0 field_map_keys_nodup h0 hfail hrest⟩

/-- Witness for C1 on a concrete fully-resolvable record. -/
theorem C1_field_extraction_witness :
    (extract_fields sampleCard).lookup "rarity" = walk sampleCard ["rarity"] ∧
    (extract_fields sampleCard).map Prod.fst = field_map.map Prod.fst :=
  ⟨(C1_field_extraction sampleCard).1 ("rarity", ["rarity"]) (by decide),
   (C1_field_extraction sampleCard).2.2.1 (by decide)⟩

/-- Claim C6: the output key `set_name` of `get_card_info` is populated from
the attribute path `set → series` (it is the unique path bound to that key in
the table), so whenever that path resolves on the matched record the value
stored under `set_name` is the record's set SERIES designation. -/
theorem C6_set_name_is_series (card v : PyVal)
    (h : walk card ["set", "series"] = some v) :
    ("set_name", ["set", "series"]) ∈ field_map ∧
    (∀ kp ∈ field_map, kp.1 = "set_name" → kp.2 = ["set", "series"]) ∧
    (extract_fields card).lookup "set_name" = some v := by
  refine ⟨by decide, by decide, ?_⟩
  have hl := lookup_extract_over field_map card field_map_keys_nodup
    ("set_name", ["set", "series"]) (by decide)
  exact hl.trans h

/-- Witness for C6: on the sample record, `set_name` carries the series
string, not the set's name. -/
theorem C6_set_name_is_series_witness :
    ("set_name", ["set", "series"]) ∈ field_map ∧
    (∀ kp ∈ field_map, kp.1 = "set_name" → kp.2 = ["set", "series"]) ∧
    (extract_fields sampleCard).lookup "set_name"
      = some (PyVal.vstr ("Scarlet & Violet".toList)) :=
  C6_set_name_is_series sampleCard (PyVal.vstr ("Scarlet & Violet".toList)) rfl

/-- Claim C2: when the upstream search returns zero records, `get_card_image`
and `get_card_info` each return (not raise) the structured payload with
exactly the keys `error`, `card_name`, `set_name`, `set_series`, `number`,
where `error` maps to "Card not found" and the other four echo the query
inputs; the two operations do so independently, each under its own search
hypothesis. -/
theorem C2_not_found (search : Str → List PyVal) (cn sn ss n : Str) :
    (search (query_image cn sn ss n) = [] →
      get_card_image search cn sn ss n
        = ImageOut.err
            [("error", PyVal.vstr ("Card not found".toList)),
             ("card_name", PyVal.vstr cn),
             ("set_name", PyVal.vstr sn),
             ("set_series", PyVal.vstr ss),
             ("number", PyVal.vstr n)]) ∧
    (search (query_info cn sn ss n) = [] →
      get_card_info search cn sn ss n
        = [("error", PyVal.vstr ("Card not found".toList)),
           ("card_name", PyVal.vstr cn),
           ("set_name", PyVal.vstr sn),
           ("set_series", PyVal.vstr ss),
           ("number", PyVal.vstr n)]) := by
  constructor
  · intro h
    simp [get_card_image, h, notFoundPayload]
  · intro h
    simp [get_card_info, h, notFoundPayload]

/-- Witness for C2 at the spec's Squirtle example with an empty upstream. -/
theorem C2_not_found_witness :
    get_card_image (fun _ => []) ("Squirtle".toList) ("Stellar Crown".toList)
        [] []
      = ImageOut.err
          [("error", PyVal.vstr ("Card not found".toList)),
           ("card_name", PyVal.vstr ("Squirtle".toList)),
           ("set_name", PyVal.vstr ("Stellar Crown".toList)),
           ("set_series", PyVal.vstr []),
           ("number", PyVal.vstr [])] ∧
    get_card_info (fun _ => []) ("Squirtle".toList) ("Stellar Crown".toList)
        [] []
      = [("error", PyVal.vstr ("Card not found".toList)),
         ("card_name", PyVal.vstr ("Squirtle".toList)),
         ("set_name", PyVal.vstr ("Stellar Crown".toList)),
         ("set_series", PyVal.vstr []),
         ("number", PyVal.vstr [])] :=
  ⟨(C2_not_found (fun _ => []) ("Squirtle".toList) ("Stellar Crown".toList)
      [] []).1 rfl,
   (C2_not_found (fun _ => []) ("Squirtle".toList) ("Stellar Crown".toList)
      [] []).2 rfl⟩

/-- Claim C8: on one or more matches, both operations use only the first
matched record: two searches agreeing on the first match (with arbitrary
differing tails) yield the same image result and the same extracted
mapping. -/
theorem C8_first_match_only (s1 s2 : Str → List PyVal) (cn sn ss n : Str)
    (c : PyVal) (t1 t2 : List PyVal) :
    (s1 (query_image cn sn ss n) = c :: t1 →
      s2 (query_image cn sn ss n) = c :: t2 →
      get_card_image s1 cn sn ss n = get_card_image s2 cn sn ss n) ∧
    (s1 (query_info cn sn ss n) = c :: t1 →
      s2 (query_info cn sn ss n) = c :: t2 →
      get_card_info s1 cn sn ss n = get_card_info s2 cn sn ss n) := by
  constructor
  · intro h1 h2
    simp [get_card_image, h1, h2]
  · intro h1 h2
    simp [get_card_info, h1, h2]

/-- Witness for C8: same first match, different tails. -/
theorem C8_first_match_only_witness :
    get_card_image (fun _ => [sampleCard]) ("Eevee EX".toList) [] [] []
      = get_card_image (fun _ => [sampleCard, PyVal.vnone])
          ("Eevee EX".toList) [] [] [] ∧
    get_card_info (fun _ => [sampleCard]) ("Eevee EX".toList) [] [] []
      = get_card_info (fun _ => [sampleCard, PyVal.vnone])
          ("Eevee EX".toList) [] [] [] :=
  ⟨(C8_first_match_only (fun _ => [sampleCard])
      (fun _ => [sampleCard, PyVal.vnone]) ("Eevee EX".toList) [] [] []
      sampleCard [] [PyVal.vnone]).1 rfl rfl,
   (C8_first_match_only (fun _ => [sampleCard])
      (fun _ => [sampleCard, PyVal.vnone]) ("Eevee EX".toList) [] [] []
      sampleCard [] [PyVal.vnone]).2 rfl rfl⟩

/-- Claim C9: `run_agent` never propagates an exception: every outcome is
either the agent's answer unchanged or a formatted error string paired with an
absent (`None`) second value — the instantiation-failure message when agent
construction fails, the run-failure message when agent execution fails. -/
theorem C9_run_agent_catches (instantiate : Except Str Unit)
    (runA : Str → Str → Str → Str → Except Str Str) (cn sn ss n : Str) :
    ((∃ a, run_agent instantiate runA cn sn ss n = RunAgentResult.answer a) ∨
      (∃ m, run_agent instantiate runA cn sn ss n
        = RunAgentResult.errorPair m Option.none)) ∧
    (∀ e, instantiate = Except.error e →
      run_agent instantiate runA cn sn ss n
        = RunAgentResult.errorPair
            ("Error initializing agent: ".toList ++ e) Option.none) ∧
    (∀ e, instantiate = Except.ok () → runA cn sn ss n = Except.error e →
      run_agent instantiate runA cn sn ss n
        = RunAgentResult.errorPair
            ("Error running agent: ".toList ++ e) Option.none) ∧
    (∀ a, instantiate = Except.ok () → runA cn sn ss n = Except.ok a →
      run_agent instantiate runA cn sn ss n = RunAgentResult.answer a) := by
  refine ⟨?_, ?_, ?_, ?_⟩
  · cases instantiate with
    | error e =>
      exact Or.inr ⟨"Error initializing agent: ".toList ++ e, rfl⟩
    | ok u =>
      cases h : runA cn sn ss n with
      | error e =>
        exact Or.inr ⟨"Error running agent: ".toList ++ e, by simp [run_agent, h]⟩
      | ok a => exact Or.inl ⟨a, by simp [run_agent, h]⟩
  · intro e he
    simp [run_agent, he]
  · intro e hi hr
    simp [run_agent, hi, hr]
  · intro a hi hr
    simp [run_agent, hi, hr]

/-- Witness for C9, exercising the three outcomes on concrete oracles. -/
theorem C9_run_agent_catches_witness :
    run_agent (Except.error ("boom".toList)) (fun _ _ _ _ => Except.ok [])
        [] [] [] []
      = RunAgentResult.errorPair
          ("Error initializing agent: ".toList ++ "boom".toList) Option.none ∧
    run_agent (Except.ok ()) (fun _ _ _ _ => Except.error ("fail".toList))
        [] [] [] []
      = RunAgentResult.errorPair
          ("Error running agent: ".toList ++ "fail".toList) Option.none ∧
    run_agent (Except.ok ()) (fun _ _ _ _ => Except.ok ("report".toList))
        [] [] [] []
      = RunAgentResult.answer ("report".toList) :=
  ⟨(C9_run_agent_catches (Except.error ("boom".toList))
      (fun _ _ _ _ => Except.ok []) [] [] [] []).2.1 ("boom".toList) rfl,
   (C9_run_agent_catches (Except.ok ())
      (fun _ _ _ _ => Except.error ("fail".toList)) [] [] [] []).2.2.1
      ("fail".toList) rfl rfl,
   (C9_run_agent_catches (Except.ok ())
      (fun _ _ _ _ => Except.ok ("report".toList)) [] [] [] []).2.2.2
      ("report".toList) rfl rfl⟩

/-- Claim C10: the query string constructed inside `get_card_image` and the
one constructed inside `get_card_info` are identical functions of the four
inputs (the duplicated code paths are extensionally equal). -/
theorem C10_query_paths_equal (cn sn ss n : Str) :
    query_image cn sn ss n = query_info cn sn ss n := rfl

/-- Claim C3 (amended): the built query is non-empty and is the
space-separated concatenation of one parenthesized clause per field, each
clause the `"AND "`-joined list of ` field:token ` terms, one term per
SPACE-separated token (split on the space character only — not on general
whitespace, which is where the claim as stated fails) of the lower-cased
(and, for set fields, ampersand-stripped) input with empty tokens dropped;
splitting on spaces is faithful: rejoining the chunks with single spaces
recovers the input, and every token is non-empty and space-free. -/
theorem C3_query_shape (cn sn ss n : Str) :
    query_image cn sn ss n ≠ [] ∧
    query_image cn sn ss n
      = clause ("name".toList) (tokens (pylower cn)) ++ [' ']
        ++ clause ("set.name".toList) (tokens (removeAmp (pylower sn))) ++ [' ']
        ++ clause ("set.series".toList) (tokens (removeAmp (pylower ss))) ++ [' ']
        ++ ['('] ++ ("number:".toList) ++ n ++ [')'] ∧
    (∀ s : Str, List.intercalate [' '] (s.splitOn ' ') = s) ∧
    (∀ s : Str, ∀ t ∈ tokens s, t ≠ [] ∧ ' ' ∉ t) ∧
    (∀ s : Str, tokens s = (s.splitOn ' ').filter (fun t => t ≠ [])) ∧
    (∀ f toks, clause f toks
      = ['('] ++ List.intercalate ("AND ".toList) (toks.map (term f)) ++ [')']) ∧
    (∀ f t, term f t = [' '] ++ f ++ [':'] ++ t ++ [' ']) := by
  refine ⟨?_, rfl, fun s => splitOn_space_intercalate s,
    fun s t ht => ⟨(tokens_spec s t ht).1, (tokens_spec s t ht).2.1⟩,
    fun s => rfl, fun f toks => rfl, fun f t => rfl⟩
  simp [query_image, clause]

/-- Witness for C3 (amended) at the demo inputs. -/
theorem C3_query_shape_witness :
    query_image ("Eevee EX".toList) ("Prismatic Evolutions".toList)
        ("Scarlet & Violet".toList) ("167".toList) ≠ [] ∧
    (['e', 'x'] ≠ ([] : Str) ∧ ' ' ∉ (['e', 'x'] : Str)) :=
  ⟨(C3_query_shape ("Eevee EX".toList) ("Prismatic Evolutions".toList)
      ("Scarlet & Violet".toList) ("167".toList)).1,
   (C3_query_shape ("Eevee EX".toList) ("Prismatic Evolutions".toList)
      ("Scarlet & Violet".toList) ("167".toList)).2.2.2.1
      ("eevee ex".toList) ['e', 'x'] (by decide)⟩

/-- Counterexample to C3 as stated: tokens are NOT whitespace-separated — a
tab is not a separator, so for the card name `"a\tb"` the code builds one
term with the tab inside the token, not the two terms the claim's
whitespace-tokenization prescribes. -/
theorem C3_counterexample :
    query_image ("a\tb".toList) [] [] []
        ≠ query_claimWS ("a\tb".toList) [] [] [] ∧
    '\t' ∈ query_image ("a\tb".toList) [] [] [] := by decide

/-- Claim C4 (amended): the ampersand is stripped (before tokenization) from
the set-level fields only, so it never appears in the `set.name` or
`set.series` clauses of the built query, whatever the inputs; it is NOT
stripped from the card-name field (nor the number field), which is where the
claim as stated fails. -/
theorem C4_amp_stripped (cn sn ss n : Str) :
    ('&' ∉ clause ("set.name".toList) (tokens (removeAmp (pylower sn)))) ∧
    ('&' ∉ clause ("set.series".toList) (tokens (removeAmp (pylower ss)))) ∧
    query_image cn sn ss n
      = clause ("name".toList) (tokens (pylower cn)) ++ [' ']
        ++ clause ("set.name".toList) (tokens (removeAmp (pylower sn))) ++ [' ']
        ++ clause ("set.series".toList) (tokens (removeAmp (pylower ss))) ++ [' ']
        ++ ['('] ++ ("number:".toList) ++ n ++ [')'] :=
  ⟨amp_not_mem_clause _ _ (by decide), amp_not_mem_clause _ _ (by decide), rfl⟩

/-- Witness for C4 (amended) on an ampersand-laden set series. -/
theorem C4_amp_stripped_witness :
    '&' ∉ clause ("set.series".toList)
      (tokens (removeAmp (pylower ("Scarlet & Violet".toList)))) :=
  (C4_amp_stripped [] [] ("Scarlet & Violet".toList) []).2.1

/-- Counterexample to C4 as stated: the configured punctuation `&` DOES appear
in a field clause of the built query when the card name contains it — the
name field is not stripped. -/
theorem C4_counterexample :
    '&' ∈ clause ("name".toList) (tokens (pylower ("a&b".toList))) ∧
    '&' ∈ query_image ("a&b".toList) [] [] [] := by decide

/-- Claim C5 (amended): a literal, non-tokenized clause `(number:<value>)` —
the value inserted verbatim, with no lower-casing and no token splitting — is
ALWAYS appended to the built query, in both operations; in particular it is
appended even when no card number is supplied, yielding `(number:)`. -/
theorem C5_number_clause (cn sn ss n : Str) :
    query_image cn sn ss n
      = (clause ("name".toList) (tokens (pylower cn)) ++ [' ']
          ++ clause ("set.name".toList) (tokens (removeAmp (pylower sn))) ++ [' ']
          ++ clause ("set.series".toList) (tokens (removeAmp (pylower ss))) ++ [' '])
        ++ (['('] ++ ("number:".toList) ++ n ++ [')']) ∧
    query_info cn sn ss n
      = (clause ("name".toList) (tokens (pylower cn)) ++ [' ']
          ++ clause ("set.name".toList) (tokens (removeAmp (pylower sn))) ++ [' ']
          ++ clause ("set.series".toList) (tokens (removeAmp (pylower ss))) ++ [' '])
        ++ (['('] ++ ("number:".toList) ++ n ++ [')']) := by
  constructor <;> simp [query_image, query_info, List.append_assoc]

/-- Counterexample to C5 as stated: with no card number supplied (empty
number), a number clause `(number:)` is still appended. -/
theorem C5_counterexample :
    query_image [] [] [] [] = "() () () (number:)".toList := by decide

/-- Claim C7: when the name field tokenizes to zero tokens, query construction
still totally produces the well-formed query whose name clause is the empty
parenthesized group `()`, in both operations. -/
theorem C7_empty_name_clause (cn sn ss n : Str)
    (h : tokens (pylower cn) = []) :
    clause ("name".toList) (tokens (pylower cn)) = ['(', ')'] ∧
    query_image cn sn ss n
      = ['(', ')'] ++ [' ']
        ++ clause ("set.name".toList) (tokens (removeAmp (pylower sn))) ++ [' ']
        ++ clause ("set.series".toList) (tokens (removeAmp (pylower ss))) ++ [' ']
        ++ ['('] ++ ("number:".toList) ++ n ++ [')'] ∧
    query_info cn sn ss n
      = ['(', ')'] ++ [' ']
        ++ clause ("set.name".toList) (tokens (removeAmp (pylower sn))) ++ [' ']
        ++ clause ("set.series".toList) (tokens (removeAmp (pylower ss))) ++ [' ']
        ++ ['('] ++ ("number:".toList) ++ n ++ [')'] := by
  have hcl : clause ("name".toList) ([] : List Str) = ['(', ')'] := by decide
  refine ⟨h ▸ hcl, ?_, ?_⟩
  · simp only [query_image]
    rw [h, hcl]
  · simp only [query_info]
    rw [h, hcl]

/-- Witness for C7 at a whitespace-only card name. -/
theorem C7_empty_name_clause_witness :
    clause ("name".toList) (tokens (pylower ("   ".toList))) = ['(', ')'] ∧
    query_image ("   ".toList) [] [] []
      = ['(', ')'] ++ [' ']
        ++ clause ("set.name".toList) (tokens (removeAmp (pylower []))) ++ [' ']
        ++ clause ("set.series".toList) (tokens (removeAmp (pylower []))) ++ [' ']
        ++ ['('] ++ ("number:".toList) ++ [] ++ [')'] ∧
    query_info ("   ".toList) [] [] []
      = ['(', ')'] ++ [' ']
        ++ clause ("set.name".toList) (tokens (removeAmp (pylower []))) ++ [' ']
        ++ clause ("set.series".toList) (tokens (removeAmp (pylower []))) ++ [' ']
        ++ ['('] ++ ("number:".toList) ++ [] ++ [')'] :=
  C7_empty_name_clause ("   ".toList) [] [] [] (by decide)

end PokemonTCG
